import Mathlib

set_option maxRecDepth 4000

/-!
Verification of the chunking & relevance ranking engine of the annotation
research tool.  The definitions below are a shallow embedding of the
TypeScript sources:

* `server/projectSearch.ts` — `textMatchScore`, `globalSearch`,
  `getRelevanceLevel`, `searchProjectDocument`;
* `server/chunker.ts` (second part of that source file) — `chunkText`,
  `findSentenceEnd`;
* the route file (`registerRoutes`) — `isGarbledText`, the set-intent
  thoroughness validation, the lazy chunk-embedding fill, and the
  top-chunk selection.

Strings are modelled as `List Char`; JavaScript numbers that only ever
hold fractions with small denominators are modelled as `ℚ`; database
rows are explicit lists; external collaborators (embedding provider,
cosine similarity, LLM quote extraction — all in `server/openai.ts`,
which is not part of the sources) are taken as parameters.
-/

namespace AnnotationSearch

abbrev Str := List Char

def str (s : String) : Str := s.toList

/-- The characters removed by a JavaScript `\s` / `trim()`:
space, tab, newline, carriage return, vertical tab, form feed. -/
def isJsWhitespaceChar (c : Char) : Bool :=
  c = ' ' || c = '\t' || c = '\n' || c = '\r' || c.toNat = 11 || c.toNat = 12

def toLowerStr (s : Str) : Str := s.map Char.toLower

/-- The class `[a-zA-Z]` of the word regex in `isGarbledText`. -/
def isAsciiAlphaChar (c : Char) : Bool :=
  (65 ≤ c.toNat && c.toNat ≤ 90) || (97 ≤ c.toNat && c.toNat ≤ 122)

/-- The symbol set `[\[\]{}\\|^~`@#$%&*+=<>]` counted by `isGarbledText`,
given by character codes. -/
def isBracketSymbolChar (c : Char) : Bool :=
  [91, 93, 123, 125, 92, 124, 94, 126, 96, 64,
   35, 36, 37, 38, 42, 43, 61, 60, 62].contains c.toNat

/-- Maximal runs of characters satisfying `p` (accumulator holds the
current run reversed). -/
def runsAux (p : Char → Bool) : Str → Str → List Str
  | cur, [] => if cur = [] then [] else [cur.reverse]
  | cur, c :: rest =>
    if p c then runsAux p (c :: cur) rest
    else if cur = [] then runsAux p [] rest
    else cur.reverse :: runsAux p [] rest

def runsP (p : Char → Bool) (s : Str) : List Str := runsAux p [] s

/-- JavaScript `split(/\s+/)` restricted to its non-empty tokens: the maximal runs of
non-whitespace characters.  (The JavaScript split can also produce empty
leading/trailing tokens, which the callers discard with a length filter.) -/
def splitWs (s : Str) : List Str := runsP (fun c => !isJsWhitespaceChar c) s

/-- First index at which `pat` occurs in `s` (JavaScript `indexOf`). -/
def findFrom (pat : Str) : Str → Option Nat
  | [] => if pat.isPrefixOf ([] : Str) then some 0 else none
  | c :: rest =>
    if pat.isPrefixOf (c :: rest) then some 0
    else (findFrom pat rest).map (· + 1)

/-- JavaScript `haystack.includes(needle)`. -/
def jsIncludes (haystack needle : Str) : Bool := (findFrom needle haystack).isSome

/-- First index `≥ k` at which `pat` occurs in `s`
(the occurrence `indexOf(pat, k)` would find). -/
def firstOccurFrom (pat s : Str) (k : Nat) : Option Nat :=
  (findFrom pat (s.drop k)).map (· + k)

/-! ## Lexical scorer (`server/projectSearch.ts`, `textMatchScore`) -/

def TEXT_MATCH_SCORE : ℚ := 3/5

def textMatchScore (query text : Str) : ℚ :=
  let queryLower := toLowerStr query
  let textLower := toLowerStr text
  if jsIncludes textLower queryLower then TEXT_MATCH_SCORE + 3/10
  else
    let queryWords := (splitWs queryLower).filter fun w => 2 < w.length
    if queryWords.length = 0 then 0
    else
      let matchedWords := queryWords.countP fun w => jsIncludes textLower w
      let matchFrac : ℚ := (matchedWords : ℚ) / (queryWords.length : ℚ)
      if 1/2 ≤ matchFrac then TEXT_MATCH_SCORE * matchFrac else 0

/-- The lexical score exactly as the specification words it (claim C3):
`0.9` on a case-insensitive substring hit, otherwise `0.6 * matchRatio`
over the query's lowercase words of length `> 2`, suppressed below a
half overlap. -/
def textMatchScoreSpec (query text : Str) : ℚ :=
  if jsIncludes (toLowerStr text) (toLowerStr query) then 9/10
  else
    let ws := (splitWs (toLowerStr query)).filter fun w => 2 < w.length
    if ws = [] then 0
    else
      let frac : ℚ := ((ws.countP fun w => jsIncludes (toLowerStr text) w : Nat) : ℚ) / (ws.length : ℚ)
      if frac < 1/2 then 0 else (3/5) * frac

/-! ## Chunker (`server/chunker.ts`: `chunkText`, `findSentenceEnd`) -/

structure TextChunkData where
  text : Str
  startPosition : Nat
  endPosition : Nat
deriving DecidableEq

/-- JavaScript `text.slice(a, b)` for `0 ≤ a ≤ b` (clamped at the length). -/
def sliceStr (s : Str) (a b : Nat) : Str := (s.drop a).take (b - a)

def sentenceEnders : List Str :=
  [str ". ", str ".\n", str "! ", str "!\n", str "? ", str "?\n"]

/-- One step of the fold over the sentence enders.  The source's inner
`while` walks successive `indexOf(ender, pos + 1)` occurrences while
`pos ≤ targetLength + 50`, recording `pos + ender.length` for the first
occurrence with `pos ≥ targetLength - 50`; that is exactly: take the
first occurrence at an index `≥ targetLength - 50` and keep it when it
is `≤ targetLength + 50`. -/
def sentenceEnderStep (s : Str) (targetLength : Nat) (bestPos : Int) (ender : Str) : Int :=
  match firstOccurFrom ender s (targetLength - 50) with
  | some pos => if pos ≤ targetLength + 50 then ((pos + ender.length : Nat) : Int) else bestPos
  | none => bestPos

def findSentenceEnd (s : Str) (targetLength : Nat) : Int :=
  sentenceEnders.foldl (sentenceEnderStep s targetLength) (-1)

/-- The tentative chunk end: `start + chunkSize`, snapped to a sentence
boundary found in the lookahead window when one lands near the target
length (`chunkText`, lines 265-274). -/
def chunkEnd (text : Str) (chunkSize start : Nat) : Nat :=
  let end0 := start + chunkSize
  if end0 < text.length then
    let slice := sliceStr text start (min (end0 + 100) text.length)
    let sentenceEnd := findSentenceEnd slice chunkSize
    if 0 < sentenceEnd then start + sentenceEnd.toNat else end0
  else end0

/-- The `while (start < text.length)` loop of `chunkText`, with explicit
fuel.  A chunk is pushed when its slice is non-blank (`trim()` truthy);
the cursor advances to `end - overlap` and the loop breaks once
`start >= text.length - overlap`.  Positions are `Nat`: on the inputs
exercised here the JavaScript arithmetic never goes negative, and the
truncated subtractions agree with it. -/
def chunkTextLoop (text : Str) (chunkSize overlap : Nat) :
    Nat → Nat → List TextChunkData → Option (List TextChunkData)
  | 0, _, _ => none
  | fuel + 1, start, chunks =>
    if start < text.length then
      let end1 := chunkEnd text chunkSize start
      let chunkStr := sliceStr text start end1
      let chunks' :=
        if chunkStr.any (fun c => !isJsWhitespaceChar c) then
          chunks ++ [⟨chunkStr, start, end1⟩]
        else chunks
      if text.length - overlap ≤ end1 - overlap then some chunks'
      else chunkTextLoop text chunkSize overlap fuel (end1 - overlap) chunks'
    else some chunks

/-- The function `chunkText(text, chunkSize, overlap)`.  `text.length + 1` units of
fuel are enough whenever the cursor makes progress (with the default
parameters it advances by at least `402` per iteration); `none` means
the loop did not finish within the fuel. -/
def chunkText (text : Str) (chunkSize overlap : Nat) : Option (List TextChunkData) :=
  chunkTextLoop text chunkSize overlap (text.length + 1) 0 []

/-! ## Garbled-text detector (route file, `isGarbledText`) -/

def garbledSample (t : Str) : Str := t.take 2000

/-- The words `sample.match(/[a-zA-Z]{3,}/g)`: maximal runs of `≥ 3` alphabetic
characters. -/
def garbledWords (t : Str) : List Str :=
  (runsP isAsciiAlphaChar (garbledSample t)).filter fun w => 3 ≤ w.length

def garbledWordChars (t : Str) : Nat := ((garbledWords t).map List.length).sum

/-- Length of the sample with whitespace removed. -/
def garbledTotalChars (t : Str) : Nat :=
  ((garbledSample t).filter (fun c => !isJsWhitespaceChar c)).length

def garbledBrackets (t : Str) : Nat := (garbledSample t).countP isBracketSymbolChar

def wordFrac (t : Str) : ℚ :=
  if 0 < garbledTotalChars t then (garbledWordChars t : ℚ) / (garbledTotalChars t : ℚ) else 0

def bracketFrac (t : Str) : ℚ :=
  if 0 < garbledTotalChars t then (garbledBrackets t : ℚ) / (garbledTotalChars t : ℚ) else 0

def avgWordLen (t : Str) : ℚ :=
  if 0 < (garbledWords t).length then (garbledWordChars t : ℚ) / ((garbledWords t).length : ℚ) else 0

/-- The detector `isGarbledText` from the route file.  (The source also computes a
`specialChars` match that it never uses; it is omitted here.) -/
def isGarbledText (t : Str) : Bool :=
  if t.length < 100 then false
  else
    decide (wordFrac t < 2/5) || decide (1/10 < bracketFrac t) ||
      (decide (10 < (garbledWords t).length) && decide (avgWordLen t < 3))

/-! ## Thoroughness policy (route file, set-intent) -/

inductive ThoroughnessLevel where
  | quick | standard | thorough | exhaustive
deriving DecidableEq

def validLevels : List Str := [str "quick", str "standard", str "thorough", str "exhaustive"]

/-- The validation `validLevels.includes(thoroughness) ? thoroughness : 'standard'`. -/
def parseThoroughness (s : Str) : ThoroughnessLevel :=
  if s = str "quick" then .quick
  else if s = str "standard" then .standard
  else if s = str "thorough" then .thorough
  else if s = str "exhaustive" then .exhaustive
  else .standard

/-- Modelled from the spec: `getMaxChunksForLevel` lives in
`server/openai.ts`, which is not among the sources.  Spec §4.3: quick
≈ 10 chunks, standard ≈ 30, thorough ≈ 100, exhaustive unbounded
(`none`); the route file's own level descriptions ("Fast scan (~10
sections)", "Balanced (~30 sections)", "Deep analysis (~100 sections)",
"Full document scan") agree. -/
def getMaxChunksForLevel : ThoroughnessLevel → Option Nat
  | .quick => some 10
  | .standard => some 30
  | .thorough => some 100
  | .exhaustive => none

/-- The floor `level === 'exhaustive' ? 0.1 : 0.3` (set-intent route). -/
def minSimilarityForLevel (level : ThoroughnessLevel) : ℚ :=
  if level = .exhaustive then 1/10 else 3/10

/-- The claim's floor table: `0.1` for exhaustive, `0.3` for every
other level. -/
def floorForLevel : ThoroughnessLevel → ℚ
  | .exhaustive => 1/10
  | _ => 3/10

/-- Top-chunk selection of the set-intent route:
`rankedChunks.filter(similarity >= minSimilarity).slice(0, maxChunks)`,
over candidates already ranked by descending similarity. -/
def selectTopChunks {α : Type} (level : ThoroughnessLevel) (ranked : List (α × ℚ)) :
    List (α × ℚ) :=
  let filtered := ranked.filter fun c => decide (minSimilarityForLevel level ≤ c.2)
  match getMaxChunksForLevel level with
  | some m => filtered.take m
  | none => filtered

/-! ## Data model (`@shared/schema` rows, restricted to the fields the
search code reads).  Nullable columns are `Option Str`; the empty string
is a distinct, falsy-in-JavaScript value. -/

structure ProjectRec where
  id : Str
  name : Str
  contextSummary : Option Str
  thesis : Option Str
deriving DecidableEq

structure FolderRec where
  id : Str
  projectId : Str
  name : Str
  contextSummary : Option Str
  description : Option Str
deriving DecidableEq

structure ProjectDocumentRec where
  id : Str
  projectId : Str
  documentId : Str
  folderId : Option Str
  retrievalContext : Option Str
  citationData : Option Str
deriving DecidableEq

structure DocumentRec where
  id : Str
  filename : Str
  summary : Option Str
  userIntent : Option Str
deriving DecidableEq

structure AnnotationRec where
  id : Str
  projectDocumentId : Str
  category : Str
  highlightedText : Str
  searchableContent : Option Str
  note : Option Str
  startPosition : Nat
deriving DecidableEq

structure ChunkRec where
  id : Str
  documentId : Str
  text : Str
  startPosition : Nat
  endPosition : Nat
  embedding : Option (List ℚ)
deriving DecidableEq

structure DB where
  projects : List ProjectRec
  folders : List FolderRec
  projectDocuments : List ProjectDocumentRec
  documents : List DocumentRec
  annotationRows : List AnnotationRec
  chunks : List ChunkRec
deriving DecidableEq

/-- JavaScript truthiness of a nullable string: `null`/`undefined` and
`""` are falsy. -/
def jsTruthy (o : Option Str) : Bool :=
  match o with
  | some s => !(s = [])
  | none => false

/-- JavaScript `o || undefined` — keep a truthy value, drop null and `""`. -/
def toTruthy (o : Option Str) : Option Str := if jsTruthy o then o else none

/-- JavaScript `a || b` where `b` is a non-nullable string. -/
def jsOrD (a : Option Str) (b : Str) : Str :=
  match a with
  | some s => if s = [] then b else s
  | none => b

/-- JavaScript `[x, y, z].filter(Boolean).join(' ')`. -/
def joinTruthy (parts : List (Option Str)) : Str :=
  List.intercalate (str " ") (parts.filterMap toTruthy)

structure SearchFilters where
  categories : Option (List Str)
  folderIds : Option (List Str)
  documentIds : Option (List Str)
deriving DecidableEq

def filtersCategories (f : Option SearchFilters) : Option (List Str) := f.bind (·.categories)
def filtersFolderIds (f : Option SearchFilters) : Option (List Str) := f.bind (·.folderIds)
def filtersDocumentIds (f : Option SearchFilters) : Option (List Str) := f.bind (·.documentIds)

/-- The guard `filters?.xs && !filters.xs.includes(x)` — the `continue` guard used
for ids that are always present. -/
def skipById (ids : Option (List Str)) (x : Str) : Bool :=
  match ids with
  | some l => !(l.contains x)
  | none => false

/-- The guard `filters?.folderIds && projectDoc.folderId && !filters.folderIds.includes(projectDoc.folderId)`. -/
def skipByFolder (ids : Option (List Str)) (folderId : Option Str) : Bool :=
  match ids, toTruthy folderId with
  | some l, some fid => !(l.contains fid)
  | _, _ => false

inductive ResultType where
  | folder_context | document_context | annotationResult
deriving DecidableEq

inductive RelevanceLevel where
  | high | medium | low
deriving DecidableEq

/-- The tiering `getRelevanceLevel`: `≥ 0.7` high, `≥ 0.5` medium, else low. -/
def getRelevanceLevel (similarity : ℚ) : RelevanceLevel :=
  if 7/10 ≤ similarity then .high
  else if 5/10 ≤ similarity then .medium
  else .low

structure GlobalSearchResult where
  type : ResultType
  matchedText : Str
  similarityScore : ℚ
  relevanceLevel : RelevanceLevel
  folderId : Option Str := none
  folderName : Option Str := none
  documentId : Option Str := none
  documentFilename : Option Str := none
  annotationId : Option Str := none
  highlightedText : Option Str := none
  note : Option Str := none
  category : Option Str := none
  citationData : Option Str := none
  startPosition : Option Nat := none
deriving DecidableEq

/-- Project-context block of `globalSearch` (lines 66-77): scored only
when the project has a context summary or a thesis. -/
def projectCandidates (project : ProjectRec) (query : Str) : List GlobalSearchResult :=
  if jsTruthy project.contextSummary || jsTruthy project.thesis then
    let textToMatch := joinTruthy [project.contextSummary, project.thesis, some project.name]
    let score := textMatchScore query textToMatch
    if 0 < score then
      [{ type := .folder_context,
         matchedText := jsOrD project.contextSummary (jsOrD project.thesis project.name),
         similarityScore := score,
         relevanceLevel := getRelevanceLevel score }]
    else []
  else []

/-- Folder block of `globalSearch` (lines 79-99). -/
def folderCandidates (db : DB) (projectId query : Str) (filters : Option SearchFilters) :
    List GlobalSearchResult :=
  (db.folders.filter fun f => f.projectId == projectId).flatMap fun folder =>
    if skipById (filtersFolderIds filters) folder.id then []
    else
      let textToMatch := joinTruthy [folder.contextSummary, folder.description, some folder.name]
      let score := textMatchScore query textToMatch
      if 0 < score then
        [{ type := .folder_context,
           folderId := some folder.id,
           folderName := some folder.name,
           matchedText := jsOrD folder.contextSummary (jsOrD folder.description folder.name),
           similarityScore := score,
           relevanceLevel := getRelevanceLevel score }]
      else []

/-- Document block of `globalSearch` (lines 101-128); the inner join
with `documents` is the nested scan. -/
def documentCandidates (db : DB) (projectId query : Str) (filters : Option SearchFilters) :
    List GlobalSearchResult :=
  db.projectDocuments.flatMap fun projectDoc =>
    (db.documents.filter fun d => d.id == projectDoc.documentId).flatMap fun doc =>
      if projectDoc.projectId == projectId then
        if skipById (filtersDocumentIds filters) projectDoc.id then []
        else if skipByFolder (filtersFolderIds filters) projectDoc.folderId then []
        else
          let textToMatch := joinTruthy [projectDoc.retrievalContext, doc.summary, some doc.filename]
          let score := textMatchScore query textToMatch
          if 0 < score then
            [{ type := .document_context,
               documentId := some projectDoc.id,
               documentFilename := some doc.filename,
               folderId := toTruthy projectDoc.folderId,
               matchedText := jsOrD projectDoc.retrievalContext (jsOrD doc.summary doc.filename),
               citationData := toTruthy projectDoc.citationData,
               similarityScore := score,
               relevanceLevel := getRelevanceLevel score }]
          else []
      else []

/-- Annotation block of `globalSearch` (lines 130-165). -/
def annotationCandidates (db : DB) (projectId query : Str) (filters : Option SearchFilters) :
    List GlobalSearchResult :=
  db.annotationRows.flatMap fun ann =>
    (db.projectDocuments.filter fun pd => pd.id == ann.projectDocumentId).flatMap fun projectDoc =>
      (db.documents.filter fun d => d.id == projectDoc.documentId).flatMap fun doc =>
        if projectDoc.projectId == projectId then
          if skipById (filtersCategories filters) ann.category then []
          else if skipById (filtersDocumentIds filters) projectDoc.id then []
          else if skipByFolder (filtersFolderIds filters) projectDoc.folderId then []
          else
            let textToMatch := joinTruthy [ann.searchableContent, some ann.highlightedText, ann.note]
            let score := textMatchScore query textToMatch
            if 0 < score then
              [{ type := .annotationResult,
                 documentId := some projectDoc.id,
                 documentFilename := some doc.filename,
                 folderId := toTruthy projectDoc.folderId,
                 annotationId := some ann.id,
                 matchedText := jsOrD ann.searchableContent ann.highlightedText,
                 highlightedText := some ann.highlightedText,
                 note := toTruthy ann.note,
                 category := some ann.category,
                 citationData := toTruthy projectDoc.citationData,
                 similarityScore := score,
                 relevanceLevel := getRelevanceLevel score,
                 startPosition := some ann.startPosition }]
            else []
        else []

/-- The pooled, pre-sort candidate list of `globalSearch` — the four
source scans in program order. -/
def globalSearchCandidates (db : DB) (projectId : Str) (project : ProjectRec)
    (query : Str) (filters : Option SearchFilters) : List GlobalSearchResult :=
  projectCandidates project query ++
    folderCandidates db projectId query filters ++
    documentCandidates db projectId query filters ++
    annotationCandidates db projectId query filters

structure SearchResponse where
  results : List GlobalSearchResult
  totalResults : Nat
deriving DecidableEq

/-- The function `globalSearch` (the `searchTime` wall-clock field is real time and
is not modelled).  Results are sorted by descending score (stable) and
truncated to `limit`; `totalResults` is the pre-truncation count. -/
def globalSearch (db : DB) (projectId query : Str) (filters : Option SearchFilters)
    (limit : Nat) : SearchResponse :=
  match (db.projects.filter fun p => p.id == projectId).head? with
  | none => { results := [], totalResults := 0 }
  | some project =>
    let results := globalSearchCandidates db projectId project query filters
    let sorted := results.mergeSort fun a b => decide (b.similarityScore ≤ a.similarityScore)
    { results := sorted.take limit, totalResults := results.length }

/-! ## Single-document semantic search (`searchProjectDocument`) -/

structure RankedChunk where
  text : Str
  startPosition : Nat
  endPosition : Nat
  similarity : ℚ
deriving DecidableEq

/-- Shape of the external quote finder's output (spec §6,
`extractQuotes`); its contents are opaque to this development. -/
structure SearchResult where
  quote : Str
  explanation : Str
  relevance : Str
  startPosition : Nat
  endPosition : Nat
deriving DecidableEq

/-- The external collaborators from `server/openai.ts` (not among the
sources), taken as parameters: the embedding provider, cosine
similarity, and the LLM quote finder. -/
structure SearchDeps where
  getEmbedding : Str → List ℚ
  cosineSimilarity : List ℚ → List ℚ → ℚ
  searchDocument : Str → Str → List RankedChunk → List SearchResult

/-- Chunk ranking of `searchProjectDocument` (lines 227-236): chunks
*without* an embedding are filtered out, the rest are scored, sorted by
descending similarity, and the top 5 kept. -/
def rankDocChunks (cos : List ℚ → List ℚ → ℚ) (docChunks : List ChunkRec)
    (queryEmbedding : List ℚ) : List RankedChunk :=
  (((docChunks.filter fun c => c.embedding.isSome).map fun c =>
      ({ text := c.text, startPosition := c.startPosition, endPosition := c.endPosition,
         similarity := cos (c.embedding.getD []) queryEmbedding } : RankedChunk)).mergeSort
    fun a b => decide (b.similarity ≤ a.similarity)).take 5

/-- The function `searchProjectDocument`.  Thrown errors are `Except.error`.  The
second component of a successful result is the trace of
`updateChunkEmbedding` persistence calls — this function makes none, so
the trace is always empty. -/
def searchProjectDocument (deps : SearchDeps) (db : DB) (projectDocId query : Str) :
    Except Str (List SearchResult × List (Str × List ℚ)) :=
  match (db.projectDocuments.filter fun pd => pd.id == projectDocId).head? with
  | none => Except.error (str "Project document not found")
  | some projectDoc =>
    match (db.documents.filter fun d => d.id == projectDoc.documentId).head? with
    | none => Except.error (str "Document not found")
    | some doc =>
      let project := (db.projects.filter fun p => p.id == projectDoc.projectId).head?
      let docChunks := db.chunks.filter fun c => c.documentId == doc.id
      if docChunks.length = 0 then Except.ok ([], [])
      else
        let queryEmbedding := deps.getEmbedding query
        let rankedChunks := rankDocChunks deps.cosineSimilarity docChunks queryEmbedding
        if rankedChunks.length = 0 then Except.ok ([], [])
        else
          let researchContext := jsOrD (project.bind (·.thesis)) (jsOrD doc.userIntent [])
          Except.ok (deps.searchDocument query researchContext rankedChunks, [])

/-! ## Lazy embedding fill (set-intent route, lines 380-389) -/

/-- The fill `chunks.map(async chunk => { if (!chunk.embedding) { embed; persist;
} return chunk })`, with an explicit trace: the provider calls made
(texts embedded, in chunk order) and the `updateChunkEmbedding`
persistence calls. -/
def fillChunkEmbeddings (embed : Str → List ℚ) :
    List ChunkRec → List ChunkRec × List Str × List (Str × List ℚ)
  | [] => ([], [], [])
  | c :: rest =>
    let (rest', calls, updates) := fillChunkEmbeddings embed rest
    match c.embedding with
    | some _ => (c :: rest', calls, updates)
    | none =>
      let e := embed c.text
      ({ c with embedding := some e } :: rest', c.text :: calls, (c.id, e) :: updates)

/-! ## Concrete fixtures used by example theorems and witnesses -/

/-- A text of 100 repetitions of the letter a, with no sentence boundary. -/
def aText100 : Str := List.replicate 100 'a'

/-- A text of 2000 characters: `"@#$%"` repeated 500 times. -/
def garbled2000 : Str := List.flatten (List.replicate 500 (str "@#$%"))

/-- Trivial stand-ins for the external collaborators. -/
def exampleDeps : SearchDeps :=
  { getEmbedding := fun _ => [], cosineSimilarity := fun _ _ => 0,
    searchDocument := fun _ _ _ => [] }

def emptyDB : DB := ⟨[], [], [], [], [], []⟩

/-- A project whose only descriptive text is its name. -/
def dbNameOnlyProject : DB :=
  ⟨[⟨str "p1", str "cat", none, none⟩], [], [], [], [], []⟩

/-- A project with a thesis (so the project-context guard passes). -/
def dbThesisProject : DB :=
  ⟨[⟨str "p1", str "proj", none, some (str "all about cat")⟩], [], [], [], [], []⟩

/-- A project document with no folder assigned. -/
def pdNoFolder : ProjectDocumentRec := ⟨str "pd1", str "p1", str "d1", none, none, none⟩

def docCat : DocumentRec := ⟨str "d1", str "cat notes.txt", none, none⟩

def annCat : AnnotationRec :=
  ⟨str "a1", str "pd1", str "quote", str "the cat sat", some (str "cat"), none, 7⟩

/-- A project with one folderless document and one annotation on it. -/
def dbNoFolderDoc : DB :=
  ⟨[⟨str "p1", str "proj", none, none⟩], [], [pdNoFolder], [docCat], [annCat], []⟩

def chunkNoEmbedding : ChunkRec := ⟨str "ch1", str "d1", str "some chunk text", 0, 15, none⟩

/-- A document whose single chunk has no embedding vector. -/
def dbUnembeddedChunk : DB :=
  ⟨[⟨str "p1", str "proj", none, none⟩], [], [pdNoFolder], [docCat], [], [chunkNoEmbedding]⟩

/-- A filter carrying only a folder-id allow-list (which matches no
folder). -/
def filtersFolderOnly : Option SearchFilters := some ⟨none, some [str "zzz"], none⟩

/-- A chunk that already carries an embedding vector. -/
def chunkWithEmbedding : ChunkRec := ⟨str "ch2", str "d1", str "text2", 0, 5, some [1]⟩

end AnnotationSearch

/-! # Theorems -/

namespace AnnotationSearch

/-- C2, evaluating the code at the failing input: with
`chunkSize = overlap = 10` on a 100-character text without sentence
boundaries, the cursor advance `start = end - overlap` returns the
cursor to `0` on every iteration, so the loop never terminates — no
amount of fuel yields a result.  `chunkText` performs no rejection or
clamping of `overlap ≥ chunkSize`. -/
theorem c2_chunkText_loops_without_progress :
    ∀ (fuel : Nat) (acc : List TextChunkData),
      chunkTextLoop aText100 10 10 fuel 0 acc = none := by
  intro fuel
  induction fuel with
  | zero => intro acc; rfl
  | succ n ih =>
    intro acc
    have step : chunkTextLoop aText100 10 10 (n + 1) 0 acc
        = chunkTextLoop aText100 10 10 n 0 (acc ++ [⟨List.replicate 10 'a', 0, 10⟩]) := rfl
    rw [step]
    exact ih _

/-- C3: `textMatchScore` computes exactly the specification's lexical
score — `0.9` on a case-insensitive substring hit, else `0.6 *
matchRatio` over the lowercase query words of length `> 2`, suppressed
below half overlap — and the two example scores from the spec hold. -/
theorem c3_textMatchScore_correct :
    (∀ query text : Str, textMatchScore query text = textMatchScoreSpec query text) ∧
      textMatchScore (str "cat") (str "I have a cat") = 9/10 ∧
      textMatchScore (str "xyz123") (str "no match here") = 0 := by
  refine ⟨fun query text => ?_, ?_, ?_⟩
  case refine_2 =>
    have h : textMatchScore (str "cat") (str "I have a cat") = TEXT_MATCH_SCORE + 3/10 := rfl
    rw [h]; norm_num [TEXT_MATCH_SCORE]
  case refine_3 =>
    have h : textMatchScore (str "xyz123") (str "no match here")
        = (if (1:ℚ)/2 ≤ (((0:Nat):ℚ) / ((1:Nat):ℚ))
           then TEXT_MATCH_SCORE * (((0:Nat):ℚ) / ((1:Nat):ℚ)) else 0) := rfl
    rw [h]; norm_num
  simp only [textMatchScore, textMatchScoreSpec, TEXT_MATCH_SCORE]
  by_cases h1 : jsIncludes (toLowerStr text) (toLowerStr query) = true
  · simp [h1]; norm_num
  · simp only [Bool.not_eq_true] at h1
    simp only [h1, Bool.false_eq_true, if_false]
    by_cases h2 : ((splitWs (toLowerStr query)).filter fun w => 2 < w.length) = []
    · simp [h2]
    · have h2' : ¬ ((splitWs (toLowerStr query)).filter fun w => 2 < w.length).length = 0 := by
        simpa [List.length_eq_zero] using h2
      simp only [h2, h2', if_false]
      set L := (splitWs (toLowerStr query)).filter fun w => 2 < w.length with hL
      set frac : ℚ :=
        ((L.countP fun w => jsIncludes (toLowerStr text) w : Nat) : ℚ) / (L.length : ℚ) with hfrac
      by_cases h3 : 1/2 ≤ frac
      · rw [if_pos h3, if_neg (by linarith)]
      · rw [if_neg h3, if_pos (by linarith [lt_of_not_le h3])]

lemma floorForLevel_eq_minSimilarity (level : ThoroughnessLevel) :
    floorForLevel level = minSimilarityForLevel level := by
  cases level <;> rfl

/-- C6: over a descending-ranked candidate list, the set-intent
selection keeps exactly the candidates at or above the level's floor
(`0.1` for exhaustive, `0.3` otherwise) truncated to the level's
maximum chunk count; an unrecognized thoroughness string falls back to
`standard`; and similarities `[0.9, 0.5, 0.2]` at `standard` select
exactly the two candidates `[0.9, 0.5]`. -/
theorem c6_thoroughness_selection (level : ThoroughnessLevel)
    (ranked : List (Nat × ℚ)) (_hsorted : ranked.Sorted fun a b => b.2 ≤ a.2)
    (s : Str) (hs : s ∉ validLevels) :
    selectTopChunks level ranked
        = (match getMaxChunksForLevel level with
           | some m => (ranked.filter fun c => decide (floorForLevel level ≤ c.2)).take m
           | none => ranked.filter fun c => decide (floorForLevel level ≤ c.2)) ∧
      parseThoroughness s = .standard ∧
      selectTopChunks .standard [((0:Nat), (9:ℚ)/10), (1, 1/2), (2, 1/5)]
        = [(0, 9/10), (1, 1/2)] := by
  refine ⟨?_, ?_, ?_⟩
  · simp only [selectTopChunks, floorForLevel_eq_minSimilarity]
  · simp only [validLevels, List.mem_cons, List.not_mem_nil, or_false, not_or] at hs
    obtain ⟨h1, h2, h3, h4⟩ := hs
    simp [parseThoroughness, h1, h2, h3, h4]
  · have hstd : minSimilarityForLevel .standard = 3/10 := rfl
    norm_num [selectTopChunks, hstd, getMaxChunksForLevel, List.filter]

/-- Witness for C6 at a concrete descending-ranked list and the
unrecognized level string `"bogus"`. -/
theorem c6_thoroughness_selection_witness :
    parseThoroughness (str "bogus") = .standard ∧
      selectTopChunks .standard [((0:Nat), (9:ℚ)/10), (1, 1/2), (2, 1/5)]
        = [(0, 9/10), (1, 1/2)] :=
  ⟨(c6_thoroughness_selection ThoroughnessLevel.standard
      [((0:Nat), (9:ℚ)/10), (1, 1/2), (2, 1/5)]
      (by norm_num [List.Sorted, List.pairwise_cons]) (str "bogus") (by decide)).2.1,
   (c6_thoroughness_selection ThoroughnessLevel.standard
      [((0:Nat), (9:ℚ)/10), (1, 1/2), (2, 1/5)]
      (by norm_num [List.Sorted, List.pairwise_cons]) (str "bogus") (by decide)).2.2⟩

/-- C1 counterexample: on the 120-character text `"aaa…a"` (shorter
than `chunkSize`), `chunkText` emits the single chunk with
`endPosition = 500`, which exceeds `len(text) = 120` — refuting
`endPosition ≤ len(text)`. -/
theorem c1_endPosition_exceeds_length :
    chunkText (List.replicate 120 'a') 500 50
        = some [⟨List.replicate 120 'a', 0, 500⟩] ∧
      (List.replicate 120 'a').length = 120 ∧ 120 < 500 :=
  ⟨by decide, by decide, by decide⟩

/-- C4 counterexample: the non-empty one-character text `" "` (blank
after trimming) yields *zero* chunks, not one; and on a 130-character
non-blank text the single chunk's `endPosition` is `500`, not
`len(text) = 130`. -/
theorem c4_short_text_counterexample :
    chunkText (str " ") 500 50 = some [] ∧ (str " ").length = 1 ∧
      chunkText (List.replicate 130 'a') 500 50
        = some [⟨List.replicate 130 'a', 0, 500⟩] ∧
      (List.replicate 130 'a').length = 130 ∧ 130 < 500 :=
  ⟨by decide, by decide, by decide, by decide, by decide⟩

/-- C5 counterexample: `searchProjectDocument` on an unknown
project-document id throws (`Except.error`) rather than returning an
empty result set. -/
theorem c5_unknown_projectDocument_errors :
    searchProjectDocument exampleDeps emptyDB (str "missing") (str "q")
        = Except.error (str "Project document not found") := rfl

lemma runsAux_nil_of_none (p : Char → Bool) :
    ∀ s : Str, (∀ c ∈ s, p c = false) → runsAux p [] s = [] := by
  intro s
  induction s with
  | nil => intro _; rfl
  | cons c rest ih =>
    intro h
    unfold runsAux
    rw [h c (List.mem_cons_self c rest)]
    simpa using ih fun x hx => h x (List.mem_cons_of_mem c hx)

lemma mem_garbled2000 : ∀ c ∈ garbled2000, c ∈ str "@#$%" := by
  intro c hc
  unfold garbled2000 at hc
  rw [List.mem_flatten] at hc
  obtain ⟨l, hl, hcl⟩ := hc
  rw [List.mem_replicate] at hl
  rwa [hl.2] at hcl

lemma garbled2000_length : garbled2000.length = 2000 := by
  have h4 : (str "@#$%").length = 4 := by decide
  unfold garbled2000
  rw [List.length_flatten, List.map_replicate, h4, List.sum_replicate]
  norm_num

lemma garbled2000_sample : garbledSample garbled2000 = garbled2000 := by
  unfold garbledSample
  exact List.take_of_length_le (by rw [garbled2000_length])

lemma garbled2000_wordChars : garbledWordChars garbled2000 = 0 := by
  have hwords : garbledWords garbled2000 = [] := by
    unfold garbledWords runsP
    rw [garbled2000_sample, runsAux_nil_of_none]
    · rfl
    · intro c hc
      exact (by decide : ∀ x ∈ str "@#$%", isAsciiAlphaChar x = false) c (mem_garbled2000 c hc)
  rw [garbledWordChars, hwords]
  rfl

lemma garbled2000_totalChars : garbledTotalChars garbled2000 = 2000 := by
  unfold garbledTotalChars
  rw [garbled2000_sample, List.filter_eq_self.mpr, garbled2000_length]
  intro c hc
  exact (by decide : ∀ x ∈ str "@#$%", (!isJsWhitespaceChar x) = true) c (mem_garbled2000 c hc)

/-- C7: `isGarbledText` returns `false` for every text shorter than 100
characters (in particular the empty text); for every other text it
returns `true` exactly when, over the first-2000-character sample,
`wordRatio < 0.4` or `bracketRatio > 0.1` or (more than 10 words and
`avgWordLen < 3`); and the 2000-character `"@#$%"` repetition is
garbled. -/
theorem c7_isGarbled_characterization :
    (∀ t : Str, t.length < 100 → isGarbledText t = false) ∧
      (∀ t : Str, 100 ≤ t.length →
        (isGarbledText t = true ↔
          (wordFrac t < 2/5 ∨ 1/10 < bracketFrac t ∨
            (10 < (garbledWords t).length ∧ avgWordLen t < 3)))) ∧
      isGarbledText (str "") = false ∧
      isGarbledText garbled2000 = true := by
  have hchar : ∀ t : Str, 100 ≤ t.length →
      (isGarbledText t = true ↔
        (wordFrac t < 2/5 ∨ 1/10 < bracketFrac t ∨
          (10 < (garbledWords t).length ∧ avgWordLen t < 3))) := by
    intro t h
    unfold isGarbledText
    rw [if_neg (by omega)]
    simp [Bool.or_eq_true, Bool.and_eq_true, decide_eq_true_eq, or_assoc]
  refine ⟨?_, hchar, by decide, ?_⟩
  · intro t h
    unfold isGarbledText
    rw [if_pos h]
  · rw [hchar garbled2000 (by rw [garbled2000_length]; omega)]
    left
    unfold wordFrac
    rw [garbled2000_wordChars, garbled2000_totalChars]
    norm_num

/-- Witness for C7: the short text `"hi"` is not garbled, and the
characterization holds at the concrete 2000-character sample. -/
theorem c7_isGarbled_characterization_witness :
    isGarbledText (str "hi") = false ∧
      (isGarbledText garbled2000 = true ↔
        (wordFrac garbled2000 < 2/5 ∨ 1/10 < bracketFrac garbled2000 ∨
          (10 < (garbledWords garbled2000).length ∧ avgWordLen garbled2000 < 3))) :=
  ⟨c7_isGarbled_characterization.1 (str "hi") (by decide),
   c7_isGarbled_characterization.2.1 garbled2000 (by rw [garbled2000_length]; omega)⟩

/-- C5 (amended): `globalSearch` on an unknown project id returns the
empty response `{results: [], totalResults: 0}`; but
`searchProjectDocument` on an unknown project-document id *throws*
("Project document not found") instead of returning an empty result
set. -/
theorem c5_unknown_ids_amended :
    (∀ (db : DB) (projectId query : Str) (filters : Option SearchFilters) (limit : Nat),
        (∀ p ∈ db.projects, p.id ≠ projectId) →
        globalSearch db projectId query filters limit
          = { results := [], totalResults := 0 }) ∧
      (∀ (deps : SearchDeps) (db : DB) (projectDocId query : Str),
        (∀ pd ∈ db.projectDocuments, pd.id ≠ projectDocId) →
        searchProjectDocument deps db projectDocId query
          = Except.error (str "Project document not found")) := by
  constructor
  · intro db projectId query filters limit h
    unfold globalSearch
    have hfilter : (db.projects.filter fun p => p.id == projectId) = [] := by
      rw [List.filter_eq_nil_iff]
      intro p hp
      simpa using h p hp
    rw [hfilter]
    rfl
  · intro deps db projectDocId query h
    unfold searchProjectDocument
    have hfilter : (db.projectDocuments.filter fun pd => pd.id == projectDocId) = [] := by
      rw [List.filter_eq_nil_iff]
      intro pd hp
      simpa using h pd hp
    rw [hfilter]
    rfl

/-- Witness for C5 (amended) on the empty database. -/
theorem c5_unknown_ids_amended_witness :
    globalSearch emptyDB (str "p") (str "q") none 20
        = { results := [], totalResults := 0 } ∧
      searchProjectDocument exampleDeps emptyDB (str "x") (str "q")
        = Except.error (str "Project document not found") :=
  ⟨c5_unknown_ids_amended.1 emptyDB (str "p") (str "q") none 20 (by simp [emptyDB]),
   c5_unknown_ids_amended.2 exampleDeps emptyDB (str "x") (str "q") (by simp [emptyDB])⟩

/-- C9 counterexample: a project whose only descriptive text is its
name `"cat"` is never scored — `globalSearch` for the query `"cat"`
returns no results at all, although the name's lexical score is
non-zero (`0.9`). -/
theorem c9_name_only_project_not_scored :
    globalSearch dbNameOnlyProject (str "p1") (str "cat") none 20
        = { results := [], totalResults := 0 } ∧
      0 < textMatchScore (str "cat") (str "cat") := by
  constructor
  · have h : globalSearchCandidates dbNameOnlyProject (str "p1")
        ⟨str "p1", str "cat", none, none⟩ (str "cat") none = [] := rfl
    unfold globalSearch
    show (match (dbNameOnlyProject.projects.filter fun p => p.id == str "p1").head? with
      | none => ({ results := [], totalResults := 0 } : SearchResponse)
      | some project =>
        let results := globalSearchCandidates dbNameOnlyProject (str "p1") project (str "cat") none
        let sorted := results.mergeSort fun a b => decide (b.similarityScore ≤ a.similarityScore)
        { results := sorted.take 20, totalResults := results.length }) = _
    rw [show (dbNameOnlyProject.projects.filter fun p => p.id == str "p1").head?
        = some ⟨str "p1", str "cat", none, none⟩ from rfl]
    simp [h, List.mergeSort_nil]
  · have h : textMatchScore (str "cat") (str "cat") = TEXT_MATCH_SCORE + 3/10 := rfl
    rw [h]; norm_num [TEXT_MATCH_SCORE]

lemma skipByFolder_none (ids : Option (List Str)) : skipByFolder ids none = false := by
  cases ids <;> rfl

/-- C9 (amended): the project-level source is scored only when the
project has a (truthy) context summary or thesis; in that case a
non-zero lexical score over the joined context-summary/thesis/name text
contributes one `folder_context` candidate, counted by `totalResults`.
A project with neither is never scored, even when its name matches the
query. -/
theorem c9_project_context_amended (db : DB) (projectId query : Str)
    (filters : Option SearchFilters) (limit : Nat) (project : ProjectRec)
    (hfind : (db.projects.filter fun p => p.id == projectId).head? = some project)
    (hguard : (jsTruthy project.contextSummary || jsTruthy project.thesis) = true)
    (hscore : 0 < textMatchScore query
        (joinTruthy [project.contextSummary, project.thesis, some project.name])) :
    (∃ r ∈ globalSearchCandidates db projectId project query filters,
        r.type = .folder_context ∧
          r.similarityScore = textMatchScore query
            (joinTruthy [project.contextSummary, project.thesis, some project.name])) ∧
      0 < (globalSearch db projectId query filters limit).totalResults := by
  have hproj : projectCandidates project query
      = [{ type := .folder_context,
           matchedText := jsOrD project.contextSummary (jsOrD project.thesis project.name),
           similarityScore := textMatchScore query
             (joinTruthy [project.contextSummary, project.thesis, some project.name]),
           relevanceLevel := getRelevanceLevel (textMatchScore query
             (joinTruthy [project.contextSummary, project.thesis, some project.name])) }] := by
    unfold projectCandidates
    rw [hguard]
    simp only [if_true]
    rw [if_pos hscore]
  constructor
  · refine ⟨({ type := .folder_context,
               matchedText := jsOrD project.contextSummary (jsOrD project.thesis project.name),
               similarityScore := textMatchScore query
                 (joinTruthy [project.contextSummary, project.thesis, some project.name]),
               relevanceLevel := getRelevanceLevel (textMatchScore query
                 (joinTruthy [project.contextSummary, project.thesis, some project.name])) }
             : GlobalSearchResult), ?_, rfl, rfl⟩
    unfold globalSearchCandidates
    rw [hproj]
    exact List.mem_append_left _ (List.mem_append_left _
      (List.mem_append_left _ (List.mem_singleton.mpr rfl)))
  · unfold globalSearch
    rw [hfind]
    show 0 < (globalSearchCandidates db projectId project query filters).length
    unfold globalSearchCandidates
    rw [hproj]
    simp

/-- Witness for C9 (amended): a project with a thesis mentioning
`"cat"` yields a `folder_context` candidate for the query `"cat"`. -/
theorem c9_project_context_amended_witness :
    (∃ r ∈ globalSearchCandidates dbThesisProject (str "p1")
        ⟨str "p1", str "proj", none, some (str "all about cat")⟩ (str "cat") none,
        r.type = .folder_context ∧
          r.similarityScore = textMatchScore (str "cat")
            (joinTruthy [none, some (str "all about cat"), some (str "proj")])) ∧
      0 < (globalSearch dbThesisProject (str "p1") (str "cat") none 20).totalResults :=
  c9_project_context_amended dbThesisProject (str "p1") (str "cat") none 20
    ⟨str "p1", str "proj", none, some (str "all about cat")⟩ rfl rfl
    (by
      have h : textMatchScore (str "cat")
          (joinTruthy [none, some (str "all about cat"), some (str "proj")])
          = TEXT_MATCH_SCORE + 3/10 := rfl
      rw [h]; norm_num [TEXT_MATCH_SCORE])

/-- C10: the `folderIds` filter of `globalSearch` never excludes a
document — or an annotation of a document — whose project document has
no folder assigned (`folderId` null): such candidates stay in the
candidate pool for every filter value, provided the other filters pass
and the lexical score is non-zero. -/
theorem c10_folder_filter_retains_unfoldered :
    (∀ (db : DB) (projectId query : Str) (filters : Option SearchFilters)
        (pd : ProjectDocumentRec) (doc : DocumentRec),
        pd ∈ db.projectDocuments → doc ∈ db.documents →
        doc.id = pd.documentId → pd.projectId = projectId →
        pd.folderId = none →
        skipById (filtersDocumentIds filters) pd.id = false →
        0 < textMatchScore query
            (joinTruthy [pd.retrievalContext, doc.summary, some doc.filename]) →
        ∃ r ∈ documentCandidates db projectId query filters,
          r.type = .document_context ∧ r.documentId = some pd.id) ∧
      (∀ (db : DB) (projectId query : Str) (filters : Option SearchFilters)
          (ann : AnnotationRec) (pd : ProjectDocumentRec) (doc : DocumentRec),
        ann ∈ db.annotationRows → pd ∈ db.projectDocuments → doc ∈ db.documents →
        pd.id = ann.projectDocumentId → doc.id = pd.documentId → pd.projectId = projectId →
        pd.folderId = none →
        skipById (filtersCategories filters) ann.category = false →
        skipById (filtersDocumentIds filters) pd.id = false →
        0 < textMatchScore query
            (joinTruthy [ann.searchableContent, some ann.highlightedText, ann.note]) →
        ∃ r ∈ annotationCandidates db projectId query filters,
          r.type = .annotationResult ∧ r.annotationId = some ann.id) := by
  constructor
  · intro db projectId query filters pd doc hpd hdoc hdocid hpid hnof hskip hscore
    refine ⟨({ type := .document_context,
               documentId := some pd.id,
               documentFilename := some doc.filename,
               folderId := toTruthy pd.folderId,
               matchedText := jsOrD pd.retrievalContext (jsOrD doc.summary doc.filename),
               citationData := toTruthy pd.citationData,
               similarityScore := textMatchScore query
                 (joinTruthy [pd.retrievalContext, doc.summary, some doc.filename]),
               relevanceLevel := getRelevanceLevel (textMatchScore query
                 (joinTruthy [pd.retrievalContext, doc.summary, some doc.filename])) }
             : GlobalSearchResult), ?_, rfl, rfl⟩
    unfold documentCandidates
    simp only [List.mem_flatMap, List.mem_filter]
    refine ⟨pd, hpd, doc, ⟨hdoc, by simp [hdocid]⟩, ?_⟩
    simp [hpid, hskip, hnof, skipByFolder_none, if_pos hscore]
  · intro db projectId query filters ann pd doc hann hpd hdoc hpdid hdocid hpid hnof
      hcat hskip hscore
    refine ⟨({ type := .annotationResult,
               documentId := some pd.id,
               documentFilename := some doc.filename,
               folderId := toTruthy pd.folderId,
               annotationId := some ann.id,
               matchedText := jsOrD ann.searchableContent ann.highlightedText,
               highlightedText := some ann.highlightedText,
               note := toTruthy ann.note,
               category := some ann.category,
               citationData := toTruthy pd.citationData,
               similarityScore := textMatchScore query
                 (joinTruthy [ann.searchableContent, some ann.highlightedText, ann.note]),
               relevanceLevel := getRelevanceLevel (textMatchScore query
                 (joinTruthy [ann.searchableContent, some ann.highlightedText, ann.note])),
               startPosition := some ann.startPosition }
             : GlobalSearchResult), ?_, rfl, rfl⟩
    unfold annotationCandidates
    simp only [List.mem_flatMap, List.mem_filter]
    refine ⟨ann, hann, pd, ⟨hpd, by simp [hpdid]⟩, doc, ⟨hdoc, by simp [hdocid]⟩, ?_⟩
    simp [hpid, hcat, hskip, hnof, skipByFolder_none, if_pos hscore]

/-- Witness for C10: with a folder-id allow-list that matches nothing,
the folderless document `"pd1"` and its annotation `"a1"` are still in
the candidate pool for the query `"cat"`. -/
theorem c10_folder_filter_retains_unfoldered_witness :
    (∃ r ∈ documentCandidates dbNoFolderDoc (str "p1") (str "cat") filtersFolderOnly,
        r.type = .document_context ∧ r.documentId = some (str "pd1")) ∧
      (∃ r ∈ annotationCandidates dbNoFolderDoc (str "p1") (str "cat") filtersFolderOnly,
        r.type = .annotationResult ∧ r.annotationId = some (str "a1")) :=
  ⟨c10_folder_filter_retains_unfoldered.1 dbNoFolderDoc (str "p1") (str "cat")
      filtersFolderOnly pdNoFolder docCat (by decide) (by decide) rfl rfl rfl rfl
      (by show (0:ℚ) < TEXT_MATCH_SCORE + 3/10; norm_num [TEXT_MATCH_SCORE]),
   c10_folder_filter_retains_unfoldered.2 dbNoFolderDoc (str "p1") (str "cat")
      filtersFolderOnly annCat pdNoFolder docCat (by decide) (by decide) (by decide)
      rfl rfl rfl rfl rfl rfl
      (by show (0:ℚ) < TEXT_MATCH_SCORE + 3/10; norm_num [TEXT_MATCH_SCORE])⟩

/-- C8 (amended): in the set-intent operation, every chunk missing an
embedding triggers exactly one provider call (its text, in chunk order)
and exactly one `updateChunkEmbedding` persistence with the resulting
vector, before ranking proceeds on the filled chunk list; chunks that
already carry a vector are returned unchanged with no call.  In
`searchProjectDocument`, by contrast, no persistence happens at all
(the update trace of a successful run is empty) and ranking only ever
sees chunks that already have an embedding — chunks missing one are
filtered out. -/
theorem c8_embedding_fill_amended :
    (∀ (embed : Str → List ℚ) (chunks : List ChunkRec),
        (fillChunkEmbeddings embed chunks).2.1
            = (chunks.filter fun c => c.embedding.isNone).map (fun c => c.text) ∧
          (fillChunkEmbeddings embed chunks).2.2
            = (chunks.filter fun c => c.embedding.isNone).map (fun c => (c.id, embed c.text)) ∧
          (fillChunkEmbeddings embed chunks).1
            = chunks.map (fun c =>
                match c.embedding with
                | some _ => c
                | none => { c with embedding := some (embed c.text) })) ∧
      (∀ (deps : SearchDeps) (db : DB) (projectDocId query : Str)
          (res : List SearchResult × List (Str × List ℚ)),
        searchProjectDocument deps db projectDocId query = Except.ok res → res.2 = []) ∧
      (∀ (cos : List ℚ → List ℚ → ℚ) (docChunks : List ChunkRec)
          (queryEmbedding : List ℚ),
        ∀ r ∈ rankDocChunks cos docChunks queryEmbedding,
          ∃ c ∈ docChunks, c.embedding.isSome ∧ r.text = c.text ∧
            r.startPosition = c.startPosition ∧ r.endPosition = c.endPosition) := by
  refine ⟨?_, ?_, ?_⟩
  · intro embed chunks
    induction chunks with
    | nil => exact ⟨rfl, rfl, rfl⟩
    | cons c rest ih =>
      obtain ⟨ih1, ih2, ih3⟩ := ih
      cases hemb : c.embedding with
      | some v =>
        refine ⟨?_, ?_, ?_⟩ <;>
          simp [fillChunkEmbeddings, hemb, ih1, ih2, ih3]
      | none =>
        refine ⟨?_, ?_, ?_⟩ <;>
          simp [fillChunkEmbeddings, hemb, ih1, ih2, ih3]
  · intro deps db projectDocId query res h
    unfold searchProjectDocument at h
    split at h
    · exact absurd h (by simp)
    · split at h
      · exact absurd h (by simp)
      · dsimp only at h
        split at h
        · exact Except.ok.inj h ▸ rfl
        · split at h
          · exact Except.ok.inj h ▸ rfl
          · exact Except.ok.inj h ▸ rfl
  · intro cos docChunks queryEmbedding r hr
    unfold rankDocChunks at hr
    have hr1 := List.mem_of_mem_take hr
    rw [List.mem_mergeSort, List.mem_map] at hr1
    obtain ⟨c, hc, hrc⟩ := hr1
    rw [List.mem_filter] at hc
    exact ⟨c, hc.1, hc.2, by rw [← hrc], by rw [← hrc], by rw [← hrc]⟩

/-- Witness for C8 (amended): one missing-embedding chunk yields
exactly one persisted update; a successful `searchProjectDocument` run
has an empty update trace; and a ranked result always comes from an
already-embedded chunk. -/
theorem c8_embedding_fill_amended_witness :
    (fillChunkEmbeddings (fun _ => [(1:ℚ)]) [chunkNoEmbedding]).2.2
        = [(str "ch1", [(1:ℚ)])] ∧
      (([] : List SearchResult), ([] : List (Str × List ℚ))).2 = [] ∧
      (∃ c ∈ [chunkWithEmbedding], c.embedding.isSome ∧
        (⟨str "text2", 0, 5, 0⟩ : RankedChunk).text = c.text ∧
        (⟨str "text2", 0, 5, 0⟩ : RankedChunk).startPosition = c.startPosition ∧
        (⟨str "text2", 0, 5, 0⟩ : RankedChunk).endPosition = c.endPosition) :=
  ⟨(c8_embedding_fill_amended.1 (fun _ => [(1:ℚ)]) [chunkNoEmbedding]).2.1,
   c8_embedding_fill_amended.2.1 exampleDeps dbNoFolderDoc (str "pd1") (str "q") ([], []) rfl,
   c8_embedding_fill_amended.2.2 (fun _ _ => (0:ℚ)) [chunkWithEmbedding] []
     ⟨str "text2", 0, 5, 0⟩
     (by simp [rankDocChunks, chunkWithEmbedding, List.mergeSort_singleton])⟩

/-- C8 counterexample: `searchProjectDocument` on a document whose only
chunk has no embedding succeeds with zero persistence calls (empty
update trace) — the missing chunk is silently dropped from ranking, not
embedded-and-persisted as the claim requires of every ranking
operation. -/
theorem c8_searchProjectDocument_no_embedding_fill :
    searchProjectDocument exampleDeps dbUnembeddedChunk (str "pd1") (str "q")
        = Except.ok ([], []) ∧
      (∃ c ∈ dbUnembeddedChunk.chunks, c.embedding = none) := by
  constructor
  · have hrank : rankDocChunks exampleDeps.cosineSimilarity
        (dbUnembeddedChunk.chunks.filter fun c => c.documentId == docCat.id)
        (exampleDeps.getEmbedding (str "q")) = [] := by
      unfold rankDocChunks
      rw [show ((dbUnembeddedChunk.chunks.filter fun c => c.documentId == docCat.id).filter
          fun c => c.embedding.isSome) = [] from rfl]
      simp
    calc searchProjectDocument exampleDeps dbUnembeddedChunk (str "pd1") (str "q")
        = (if (rankDocChunks exampleDeps.cosineSimilarity
              (dbUnembeddedChunk.chunks.filter fun c => c.documentId == docCat.id)
              (exampleDeps.getEmbedding (str "q"))).length = 0
           then Except.ok ([], [])
           else Except.ok (exampleDeps.searchDocument (str "q")
             (jsOrD (((dbUnembeddedChunk.projects.filter
                 fun p => p.id == pdNoFolder.projectId).head?).bind fun x => x.thesis)
               (jsOrD docCat.userIntent []))
             (rankDocChunks exampleDeps.cosineSimilarity
               (dbUnembeddedChunk.chunks.filter fun c => c.documentId == docCat.id)
               (exampleDeps.getEmbedding (str "q"))), [])) := rfl
      _ = Except.ok ([], []) := by rw [hrank]; rfl
  · exact ⟨chunkNoEmbedding, by simp [dbUnembeddedChunk], rfl⟩

lemma isPrefixOf_length (pat : Str) :
    ∀ s : Str, pat.isPrefixOf s = true → pat.length ≤ s.length := by
  induction pat with
  | nil => intro s _; simp
  | cons a pat ih =>
    intro s h
    cases s with
    | nil => simp [List.isPrefixOf] at h
    | cons b rest =>
      simp only [List.isPrefixOf, Bool.and_eq_true] at h
      have := ih rest h.2
      simp only [List.length_cons]
      omega

lemma findFrom_le (pat : Str) :
    ∀ (s : Str) (j : Nat), findFrom pat s = some j →
      j ≤ s.length ∧ pat.length + j ≤ s.length := by
  intro s
  induction s with
  | nil =>
    intro j h
    unfold findFrom at h
    split at h
    · rename_i hp
      obtain rfl : (0 : Nat) = j := Option.some.inj h
      have := isPrefixOf_length pat ([] : Str) hp
      simp at this
      simp [this]
    · exact absurd h (by simp)
  | cons c rest ih =>
    intro j h
    unfold findFrom at h
    split at h
    · rename_i hp
      obtain rfl : (0 : Nat) = j := Option.some.inj h
      have := isPrefixOf_length pat (c :: rest) hp
      simp only [List.length_cons] at this ⊢
      omega
    · rw [Option.map_eq_some'] at h
      obtain ⟨j', hj', rfl⟩ := h
      have := ih j' hj'
      simp only [List.length_cons]
      omega

lemma sentenceFoldInv (s : Str) (t : Nat) :
    ∀ (l : List Str), (∀ e ∈ l, e.length = 2) →
      ∀ init : Int,
        (init = -1 ∨ ∃ n : Nat, init = n ∧ t - 50 + 2 ≤ n ∧ n ≤ s.length) →
        (l.foldl (sentenceEnderStep s t) init = -1 ∨
          ∃ n : Nat, l.foldl (sentenceEnderStep s t) init = n ∧
            t - 50 + 2 ≤ n ∧ n ≤ s.length) := by
  intro l
  induction l with
  | nil => intro _ init h; simpa using h
  | cons e rest ih =>
    intro hl init h
    rw [List.foldl_cons]
    refine ih (fun x hx => hl x (List.mem_cons_of_mem e hx)) _ ?_
    have he : e.length = 2 := hl e (List.mem_cons_self e rest)
    unfold sentenceEnderStep
    cases hocc : firstOccurFrom e s (t - 50) with
    | none => exact h
    | some pos =>
      dsimp only
      by_cases hle : pos ≤ t + 50
      · rw [if_pos hle]
        right
        unfold firstOccurFrom at hocc
        rw [Option.map_eq_some'] at hocc
        obtain ⟨j, hj, hjp⟩ := hocc
        have hb := findFrom_le e (s.drop (t - 50)) j hj
        rw [List.length_drop] at hb
        exact ⟨pos + e.length, rfl, by omega, by omega⟩
      · rw [if_neg hle]
        exact h

lemma findSentenceEnd_cases (s : Str) (t : Nat) :
    findSentenceEnd s t = -1 ∨
      ∃ n : Nat, findSentenceEnd s t = n ∧ t - 50 + 2 ≤ n ∧ n ≤ s.length :=
  sentenceFoldInv s t sentenceEnders (by decide) (-1) (Or.inl rfl)

lemma chunkEnd_lb (text : Str) (start : Nat) : start + 452 ≤ chunkEnd text 500 start := by
  simp only [chunkEnd]
  by_cases h : start + 500 < text.length
  · rw [if_pos h]
    rcases findSentenceEnd_cases
        (sliceStr text start (min (start + 500 + 100) text.length)) 500 with
      hse | ⟨n, hse, hn1, _⟩
    · rw [hse, if_neg (by norm_num)]
      omega
    · rw [hse]
      by_cases h0 : (0 : Int) < (n : Int)
      · rw [if_pos h0, Int.toNat_natCast]
        omega
      · rw [if_neg h0]
        omega
  · rw [if_neg h]
    omega

lemma chunkEnd_ub (text : Str) (start : Nat) (h : start + 500 < text.length) :
    chunkEnd text 500 start ≤ text.length := by
  simp only [chunkEnd]
  rw [if_pos h]
  rcases findSentenceEnd_cases
      (sliceStr text start (min (start + 500 + 100) text.length)) 500 with
    hse | ⟨n, hse, _, hn2⟩
  · rw [hse, if_neg (by norm_num)]
    omega
  · rw [hse]
    by_cases h0 : (0 : Int) < (n : Int)
    · rw [if_pos h0, Int.toNat_natCast]
      have hslice : (sliceStr text start (min (start + 500 + 100) text.length)).length
          = min (min (start + 500 + 100) text.length - start) (text.length - start) := by
        simp [sliceStr, List.length_take, List.length_drop]
      rw [hslice] at hn2
      omega
    · rw [if_neg h0]
      omega

lemma chunkTextLoop_sound (text : Str) :
    ∀ (fuel start : Nat) (acc out : List TextChunkData),
      chunkTextLoop text 500 50 fuel start acc = some out →
      (∀ c ∈ acc, c.startPosition < c.endPosition ∧ c.startPosition < text.length ∧
        c.endPosition ≤ text.length ∧ c.startPosition < start) →
      acc.Pairwise (fun a b => a.startPosition < b.startPosition) →
      (∀ c ∈ out, c.startPosition < c.endPosition ∧ c.startPosition < text.length) ∧
        out.Pairwise (fun a b => a.startPosition < b.startPosition) ∧
        (∀ c ∈ out.dropLast, c.endPosition ≤ text.length) := by
  intro fuel
  induction fuel with
  | zero =>
    intro start acc out h _ _
    exact absurd h (by simp [chunkTextLoop])
  | succ n ih =>
    intro start acc out h hacc hpair
    simp only [chunkTextLoop] at h
    by_cases hstart : start < text.length
    case neg =>
      rw [if_neg hstart] at h
      obtain rfl : acc = out := Option.some.inj h
      exact ⟨fun c hc => ⟨(hacc c hc).1, (hacc c hc).2.1⟩, hpair,
        fun c hc => (hacc c (List.dropLast_subset _ hc)).2.2.1⟩
    case pos =>
      rw [if_pos hstart] at h
      have hlb : start + 452 ≤ chunkEnd text 500 start := chunkEnd_lb text start
      set E := chunkEnd text 500 start with hE
      set A := (if (sliceStr text start E).any (fun c => !isJsWhitespaceChar c) then
          acc ++ [⟨sliceStr text start E, start, E⟩] else acc) with hA
      have hAcases : A = acc ++ [⟨sliceStr text start E, start, E⟩] ∨ A = acc := by
        rw [hA]
        split
        · exact Or.inl rfl
        · exact Or.inr rfl
      by_cases hbrk : text.length - 50 ≤ E - 50
      · rw [if_pos hbrk] at h
        obtain rfl : A = out := Option.some.inj h
        refine ⟨?_, ?_, ?_⟩
        · intro c hc
          rcases hAcases with hA1 | hA1 <;> rw [hA1] at hc
          · rcases List.mem_append.mp hc with hc1 | hc1
            · exact ⟨(hacc c hc1).1, (hacc c hc1).2.1⟩
            · obtain rfl : c = ⟨sliceStr text start E, start, E⟩ := List.mem_singleton.mp hc1
              exact ⟨by show start < E; omega, hstart⟩
          · exact ⟨(hacc c hc).1, (hacc c hc).2.1⟩
        · rcases hAcases with hA1 | hA1 <;> rw [hA1]
          · refine List.pairwise_append.mpr ⟨hpair, List.pairwise_singleton _ _, ?_⟩
            intro a ha b hb
            obtain rfl : b = ⟨sliceStr text start E, start, E⟩ := List.mem_singleton.mp hb
            exact (hacc a ha).2.2.2
          · exact hpair
        · intro c hc
          rcases hAcases with hA1 | hA1 <;> rw [hA1] at hc
          · rw [List.dropLast_concat] at hc
            exact (hacc c hc).2.2.1
          · exact (hacc c (List.dropLast_subset _ hc)).2.2.1
      · rw [if_neg hbrk] at h
        have hElt : E < text.length := by omega
        refine ih (E - 50) A out h ?_ ?_
        · intro c hc
          rcases hAcases with hA1 | hA1 <;> rw [hA1] at hc
          · rcases List.mem_append.mp hc with hc1 | hc1
            · have h1 := hacc c hc1
              exact ⟨h1.1, h1.2.1, h1.2.2.1, by omega⟩
            · obtain rfl : c = ⟨sliceStr text start E, start, E⟩ := List.mem_singleton.mp hc1
              refine ⟨by show start < E; omega, hstart, ?_, ?_⟩
              · show E ≤ text.length
                omega
              · show start < E - 50
                omega
          · have h1 := hacc c hc
            exact ⟨h1.1, h1.2.1, h1.2.2.1, by omega⟩
        · rcases hAcases with hA1 | hA1 <;> rw [hA1]
          · refine List.pairwise_append.mpr ⟨hpair, List.pairwise_singleton _ _, ?_⟩
            intro a ha b hb
            obtain rfl : b = ⟨sliceStr text start E, start, E⟩ := List.mem_singleton.mp hb
            exact (hacc a ha).2.2.2
          · exact hpair

/-- C1 (amended): with the default parameters, every chunk produced by
`chunkText` satisfies `0 ≤ startPosition < endPosition` and
`startPosition < len(text)`, and chunks are emitted in strictly
increasing `startPosition` order; `endPosition ≤ len(text)` holds for
every chunk except possibly the last, whose `endPosition` may exceed
`len(text)` (it is stored as `start + chunkSize`, unclamped). -/
theorem c1_chunkText_offsets_amended (text : Str) (chunks : List TextChunkData)
    (h : chunkText text 500 50 = some chunks) :
    (∀ c ∈ chunks, c.startPosition < c.endPosition ∧ c.startPosition < text.length) ∧
      chunks.Pairwise (fun a b => a.startPosition < b.startPosition) ∧
      (∀ c ∈ chunks.dropLast, c.endPosition ≤ text.length) :=
  chunkTextLoop_sound text (text.length + 1) 0 [] chunks h (by simp) (by simp)

/-- Witness for C1 (amended) at the concrete text `"hello world"`. -/
theorem c1_chunkText_offsets_amended_witness :
    (∀ c ∈ [(⟨str "hello world", 0, 500⟩ : TextChunkData)],
        c.startPosition < c.endPosition ∧ c.startPosition < (str "hello world").length) ∧
      ([(⟨str "hello world", 0, 500⟩ : TextChunkData)]).Pairwise
        (fun a b => a.startPosition < b.startPosition) ∧
      (∀ c ∈ ([(⟨str "hello world", 0, 500⟩ : TextChunkData)]).dropLast,
        c.endPosition ≤ (str "hello world").length) :=
  c1_chunkText_offsets_amended (str "hello world") [⟨str "hello world", 0, 500⟩] (by decide)

/-- C4 (amended): for every text strictly shorter than `chunkSize = 500`
that contains at least one non-whitespace character, `chunkText` returns
exactly one chunk whose text is the whole input and whose offsets are
`(0, 500)` — the `endPosition` is the unclamped `start + chunkSize`,
which exceeds `len(text)`; a whitespace-only text instead yields no
chunk at all (the blank slice is skipped). -/
theorem c4_short_nonblank_single_chunk (text : Str) (hlen : text.length < 500)
    (hblank : text.any (fun c => !isJsWhitespaceChar c) = true) :
    chunkText text 500 50 = some [⟨text, 0, 500⟩] := by
  have hpos : 0 < text.length := by
    cases text with
    | nil => simp at hblank
    | cons c rest => simp
  have hE : chunkEnd text 500 0 = 500 := by
    simp only [chunkEnd]
    rw [if_neg (by omega)]
  have hslice : sliceStr text 0 500 = text := by
    simp only [sliceStr, List.drop_zero]
    exact List.take_of_length_le (by omega)
  show chunkTextLoop text 500 50 (text.length + 1) 0 [] = some [⟨text, 0, 500⟩]
  simp only [chunkTextLoop]
  rw [if_pos hpos, hE, hslice, hblank]
  rw [if_pos (show text.length - 50 ≤ 500 - 50 by omega)]
  simp

/-- Witness for C4 (amended) at the concrete text `"hi there"`. -/
theorem c4_short_nonblank_single_chunk_witness :
    chunkText (str "hi there") 500 50 = some [⟨str "hi there", 0, 500⟩] :=
  c4_short_nonblank_single_chunk (str "hi there") (by decide) (by decide)

end AnnotationSearch
